import Mathlib

/-!
# Verification of the Multi-Annexure Validator core

Shallow embedding of `src/app.py` (a Streamlit Excel validation app).
The embedded core is:

* rule compilation (`buildSpec`, app.py lines 119-155),
* the validation pass (`validatePass`, app.py lines 182-232),
* the interactive column coercion (`applyFix`/`submitFix`, app.py lines 257-273).

Datasets (pandas `DataFrame`s) are modelled as ordered association lists from
column name to the list of column cells; Python `dict`s are association lists
with insert-or-overwrite (`pyInsert`).  Cells are an inductive type covering
the values relevant to the app: the pandas missing marker (`NaN`/`NaT`),
strings, numbers and datetimes.

Library functions of pandas/Python used by the app (`pd.to_datetime`,
`pd.to_numeric`, `str.strip`, `str.lower`, ...) are modelled by executable
Lean functions, documented at each definition.  `re.fullmatch` is kept
abstract: the validation engine is parameterised by a total match function
`rmatch : String → String → Bool` (pattern, candidate).  Python-level
exceptions reachable only from pathological inputs that no claim concerns
(an invalid regular-expression pattern in a rule, a non-string field name
reaching the `", ".join` of missing columns) are not modelled: the report
construction is total, which coincides with the code whenever no such
exception occurs.
-/

set_option autoImplicit false

namespace MAV

/-- A wall-clock timestamp as produced by a successful date parse
(`pandas.Timestamp`, second precision — the app only uses day/minute formats). -/
structure DateTimeVal where
  year : Nat
  month : Nat
  day : Nat
  hour : Nat
  minute : Nat
  second : Nat
  deriving DecidableEq, Repr

/-- A finite numeric value `mant · 10 ^ exp`, the model of the float values
pandas holds and of the results of `pandas.to_numeric`.  (Claims never
compare numeric magnitudes, so the decimal representation is kept as parsed
rather than normalised.) -/
structure NumVal where
  mant : Int
  exp : Int
  deriving DecidableEq, Repr

/-- One cell of a pandas `DataFrame` column, as relevant to `app.py`:
`null` is the missing marker (`NaN`/`NaT`/`None`), the other constructors are
strings, numbers and datetimes. -/
inductive Cell where
  | null
  | str (s : String)
  | num (q : NumVal)
  | date (d : DateTimeVal)
  deriving DecidableEq, Repr

/-- `pandas.isnull` on one cell (app.py line 194 `isnull().any()`). -/
def Cell.isNull : Cell → Bool
  | Cell.null => true
  | _ => false

/-! ## String helpers

Executable ASCII models of the Python string methods the app uses
(`str.lower`, `str.upper`, `str.strip`, `str.startswith`, slicing, and the
`in` substring test).  Python's versions are Unicode-aware; the app only
ever applies them to header names, flags and format strings, for which the
ASCII behaviour coincides. -/

/-- Lower-case one ASCII letter (model of `str.lower` per character). -/
def lowerCh (c : Char) : Char :=
  if 'A' ≤ c ∧ c ≤ 'Z' then Char.ofNat (c.toNat + 32) else c

/-- Upper-case one ASCII letter (model of `str.upper` per character). -/
def upperCh (c : Char) : Char :=
  if 'a' ≤ c ∧ c ≤ 'z' then Char.ofNat (c.toNat - 32) else c

/-- Model of Python `str.lower()`. -/
def strLower (s : String) : String := ⟨s.data.map lowerCh⟩

/-- Model of Python `str.upper()`. -/
def strUpper (s : String) : String := ⟨s.data.map upperCh⟩

/-- Python `str.strip()` whitespace class (the common ASCII whitespace). -/
def isWS (c : Char) : Bool :=
  c == ' ' || c == '\t' || c == '\n' || c == '\r'

/-- Model of Python `str.strip()`. -/
def strTrim (s : String) : String :=
  ⟨((s.data.dropWhile isWS).reverse.dropWhile isWS).reverse⟩

/-- Model of Python string slicing `s[n:]` (by code point, as in Python). -/
def strDropN (s : String) (n : Nat) : String := ⟨s.data.drop n⟩

/-- Model of Python `str.startswith(pre)`. -/
def strStartsWith (s pre : String) : Bool := pre.data.isPrefixOf s.data

/-- Substring test on char lists: does `needle` occur inside `hay`? -/
def infixList (needle : List Char) : List Char → Bool
  | [] => needle.isEmpty
  | c :: rest => needle.isPrefixOf (c :: rest) || infixList needle rest

/-- Model of Python `needle in hay` on strings. -/
def containsSub (needle hay : String) : Bool := infixList needle.data hay.data

/-! ## Calendar arithmetic (model of the validity checks inside
`datetime.datetime` construction, which `pandas.to_datetime` performs). -/

/-- Gregorian leap year test. -/
def isLeap (y : Nat) : Bool :=
  (y % 4 == 0 && y % 100 != 0) || y % 400 == 0

/-- Number of days of month `m` in year `y`. -/
def daysInMonth (y m : Nat) : Nat :=
  if m = 2 then (if isLeap y then 29 else 28)
  else if m = 4 ∨ m = 6 ∨ m = 9 ∨ m = 11 then 30
  else 31

/-! ## `strptime`-style format parsing

Model of `pandas.to_datetime(col, format=f)`'s strict parser for the
directives the app's formats use (`%d`, `%m`, `%Y`, `%y`, `%H`, `%M`, `%S`,
`%%`).  A format containing any other directive is rejected at compile time
(`compileFormat` returns `none`), modelling the `ValueError: bad directive`
that `strptime` raises for it regardless of the `errors=` mode. -/

inductive FmtTok where
  | day
  | month
  | year4
  | year2
  | hour
  | minute
  | second
  | lit (c : Char)
  deriving DecidableEq, Repr

/-- Compile a format string into directive tokens; `none` models the
`ValueError` Python raises on a bad or truncated `%` directive. -/
def compileFormat : List Char → Option (List FmtTok)
  | [] => some []
  | '%' :: c :: rest =>
    match c with
    | 'd' => (compileFormat rest).map (FmtTok.day :: ·)
    | 'm' => (compileFormat rest).map (FmtTok.month :: ·)
    | 'Y' => (compileFormat rest).map (FmtTok.year4 :: ·)
    | 'y' => (compileFormat rest).map (FmtTok.year2 :: ·)
    | 'H' => (compileFormat rest).map (FmtTok.hour :: ·)
    | 'M' => (compileFormat rest).map (FmtTok.minute :: ·)
    | 'S' => (compileFormat rest).map (FmtTok.second :: ·)
    | '%' => (compileFormat rest).map (FmtTok.lit '%' :: ·)
    | _ => none
  | '%' :: [] => none
  | c :: rest => (compileFormat rest).map (FmtTok.lit c :: ·)

/-- Greedily consume up to `maxw` further digits, accumulating their value. -/
def takeDigitsAux : Nat → List Char → Nat → Nat × List Char
  | 0, cs, acc => (acc, cs)
  | _ + 1, [], acc => (acc, [])
  | w + 1, c :: cs, acc =>
    if c.isDigit then takeDigitsAux w cs (acc * 10 + (c.toNat - 48))
    else (acc, c :: cs)

/-- Consume between 1 and `maxw` digits greedily (as the `\d{1,w}` patterns
`strptime` builds); fails when the input does not start with a digit. -/
def takeDigits (maxw : Nat) : List Char → Option (Nat × List Char)
  | [] => none
  | c :: cs =>
    if c.isDigit then some (takeDigitsAux (maxw - 1) cs (c.toNat - 48))
    else none

/-- Partially parsed date fields, with `strptime`'s defaults
(year 1900, month 1, day 1, midnight). -/
structure RawDT where
  y : Nat := 1900
  m : Nat := 1
  d : Nat := 1
  h : Nat := 0
  mi : Nat := 0
  s : Nat := 0
  deriving DecidableEq, Repr

/-- Run the compiled format over the input characters, filling a `RawDT`.
The whole input must be consumed (`pandas` parses with `exact=True`). -/
def runToks : List FmtTok → List Char → RawDT → Option RawDT
  | [], [], acc => some acc
  | [], _ :: _, _ => none
  | FmtTok.day :: ts, cs, acc =>
    match takeDigits 2 cs with
    | some (n, rest) => runToks ts rest { acc with d := n }
    | none => none
  | FmtTok.month :: ts, cs, acc =>
    match takeDigits 2 cs with
    | some (n, rest) => runToks ts rest { acc with m := n }
    | none => none
  | FmtTok.year4 :: ts, cs, acc =>
    match takeDigits 4 cs with
    | some (n, rest) => runToks ts rest { acc with y := n }
    | none => none
  | FmtTok.year2 :: ts, cs, acc =>
    match takeDigits 2 cs with
    | some (n, rest) =>
      runToks ts rest { acc with y := if n ≤ 68 then 2000 + n else 1900 + n }
    | none => none
  | FmtTok.hour :: ts, cs, acc =>
    match takeDigits 2 cs with
    | some (n, rest) => runToks ts rest { acc with h := n }
    | none => none
  | FmtTok.minute :: ts, cs, acc =>
    match takeDigits 2 cs with
    | some (n, rest) => runToks ts rest { acc with mi := n }
    | none => none
  | FmtTok.second :: ts, cs, acc =>
    match takeDigits 2 cs with
    | some (n, rest) => runToks ts rest { acc with s := n }
    | none => none
  | FmtTok.lit c :: ts, cs, acc =>
    match cs with
    | [] => none
    | c2 :: rest => if c2 = c then runToks ts rest acc else none

/-- Field-range validation performed by `datetime` construction: this is what
makes `31-02-2024` fail to parse (Scenario B of the spec). -/
def validRaw (r : RawDT) : Option DateTimeVal :=
  if 1 ≤ r.m ∧ r.m ≤ 12 ∧ 1 ≤ r.d ∧ r.d ≤ daysInMonth r.y r.m ∧
      r.h ≤ 23 ∧ r.mi ≤ 59 ∧ r.s ≤ 59 then
    some ⟨r.y, r.m, r.d, r.h, r.mi, r.s⟩
  else none

/-- Parse one string strictly against a compiled format. -/
def parseWithToks (toks : List FmtTok) (s : String) : Option DateTimeVal :=
  match runToks toks s.data {} with
  | some r => validRaw r
  | none => none

/-! ## Numeric parsing (model of `pandas.to_numeric` on one value) -/

/-- Digit-char list to `Nat`. -/
def digitsVal (ds : List Char) : Nat :=
  ds.foldl (fun a c => a * 10 + (c.toNat - 48)) 0

/-- Split leading digits off a char list. -/
def spanDigits : List Char → List Char × List Char
  | [] => ([], [])
  | c :: cs =>
    if c.isDigit then
      let p := spanDigits cs
      (c :: p.1, p.2)
    else ([], c :: cs)

/-- Assemble the value `±mant · 10 ^ (exp - fracLen)`. -/
def numOfParts (neg : Bool) (mant : Nat) (fracLen : Nat) (exp : Int) : NumVal :=
  { mant := if neg then -(mant : Int) else (mant : Int)
    exp := exp - (fracLen : Int) }

/-- Parse an optional exponent suffix `([eE][+-]?digits)?`, requiring the
rest of the input to be exhausted. -/
def parseExpPart : List Char → Option Int
  | [] => some 0
  | c :: cs =>
    if c = 'e' ∨ c = 'E' then
      match cs with
      | [] => none
      | d :: ds =>
        let (neg, body) : Bool × List Char :=
          if d = '-' then (true, ds)
          else if d = '+' then (false, ds)
          else (false, d :: ds)
        match body with
        | [] => none
        | _ =>
          let p := spanDigits body
          if p.1 ≠ [] ∧ p.2 = [] then
            some (if neg then -(digitsVal p.1 : Int) else (digitsVal p.1 : Int))
          else none
    else none

/-- Model of `pandas.to_numeric` applied to one string: an optional sign,
digits with an optional fractional part, and an optional exponent, allowing
surrounding whitespace. -/
def parseNumeric (s : String) : Option NumVal :=
  let cs := (strTrim s).data
  let (neg, cs1) : Bool × List Char :=
    match cs with
    | '-' :: t => (true, t)
    | '+' :: t => (false, t)
    | _ => (false, cs)
  let ip := spanDigits cs1
  let (fp, rest) : List Char × List Char :=
    match ip.2 with
    | '.' :: t =>
      let q := spanDigits t
      (q.1, q.2)
    | _ => ([], ip.2)
  if ip.1 = [] ∧ fp = [] then none
  else
    match parseExpPart rest with
    | some e => some (numOfParts neg (digitsVal (ip.1 ++ fp)) fp.length e)
    | none => none

/-! ## Stringification (model of Python `str(...)` / `Series.astype(str)`) -/

/-- Decimal rendering of a numeric cell. Python renders floats in decimal or
scientific notation; the exact textual form never influences the app's
control flow, so the model uses one canonical form per representation. -/
def NumVal.render (q : NumVal) : String :=
  if q.exp = 0 then toString q.mant ++ ".0"
  else toString q.mant ++ "e" ++ toString q.exp

/-- Zero-pad to two digits. -/
def pad2 (n : Nat) : String :=
  if n < 10 then "0" ++ toString n else toString n

/-- Zero-pad to four digits. -/
def pad4 (n : Nat) : String :=
  if n < 10 then "000" ++ toString n
  else if n < 100 then "00" ++ toString n
  else if n < 1000 then "0" ++ toString n
  else toString n

/-- `str(pandas.Timestamp)` rendering. -/
def DateTimeVal.render (d : DateTimeVal) : String :=
  pad4 d.year ++ "-" ++ pad2 d.month ++ "-" ++ pad2 d.day ++ " " ++
    pad2 d.hour ++ ":" ++ pad2 d.minute ++ ":" ++ pad2 d.second

/-- Model of Python `str(cell)` and of `Series.astype(str)` element-wise
(`str(float('nan')) = "nan"`; the same marker is used for `NaT`). -/
def Cell.toPyStr : Cell → String
  | Cell.null => "nan"
  | Cell.str s => s
  | Cell.num q => q.render
  | Cell.date d => d.render

/-! ## Column-level parse predicates -/

/-- Can `pandas.to_numeric` convert this cell (no `errors=` mode)?
Missing values pass; datetimes convert to their epoch value. -/
def numericCellOk : Cell → Bool
  | Cell.null => true
  | Cell.num _ => true
  | Cell.date _ => true
  | Cell.str s => (parseNumeric s).isSome

/-- The formats the model's best-effort date parser tries, standing in for
`pandas.to_datetime` without an explicit `format` (dateutil-style guessing,
app.py line 205). -/
def bestEffortFormats : List String :=
  ["%Y-%m-%d", "%Y-%m-%d %H:%M:%S", "%d-%m-%Y", "%d-%m-%Y %H:%M",
   "%m/%d/%Y", "%Y/%m/%d"]

/-- Compiled token lists of `bestEffortFormats`. -/
def bestEffortToks : List (List FmtTok) :=
  bestEffortFormats.filterMap (fun f => compileFormat f.data)

/-- Does the best-effort date parse accept this cell?  Missing values pass;
numbers are read as epochs; existing datetimes pass. -/
def bestEffortCellOk : Cell → Bool
  | Cell.null => true
  | Cell.num _ => true
  | Cell.date _ => true
  | Cell.str s => bestEffortToks.any (fun t => (parseWithToks t s).isSome)

/-- Does `pandas.to_datetime(col, format=..., errors='raise')` accept this
cell?  Missing values pass (they become `NaT`), datetimes pass, numbers and
non-matching strings raise. -/
def strictCellOk (toks : List FmtTok) : Cell → Bool
  | Cell.null => true
  | Cell.date _ => true
  | Cell.num _ => false
  | Cell.str s => (parseWithToks toks s).isSome

/-- Whole-column strict parse under a named format (app.py line 230). -/
def strictColOk (fmt : String) (vals : List Cell) : Bool :=
  match compileFormat fmt.data with
  | some toks => vals.all (strictCellOk toks)
  | none => false

/-! ## Python `dict` as an ordered association list

`d[k] = v` keeps the position (and key object) of an existing key and
appends new keys at the end; `list(d.keys())` is the insertion order of
first insertions.  This is exactly the behaviour `validation_spec` and
`fixable_errors` rely on in app.py. -/

section PyDict

variable {α β : Type} [DecidableEq α]

/-- Dictionary keys, in order. -/
def pyKeys (m : List (α × β)) : List α := m.map Prod.fst

/-- Dictionary lookup `d[k]` (first — and in an invariant-respecting dict,
only — entry with the key). -/
def pyGet : List (α × β) → α → Option β
  | [], _ => none
  | (a, b) :: t, k => if a = k then some b else pyGet t k

/-- Assignment `d[k] = v`: overwrite the value in place if the key exists,
else append the new pair at the end. -/
def pyInsert : List (α × β) → α → β → List (α × β)
  | [], k, v => [(k, v)]
  | (a, b) :: t, k, v =>
    if a = k then (a, v) :: t else (a, b) :: pyInsert t k v

end PyDict

/-! ## Rule compilation (app.py lines 119-155) -/

/-- The validation-rules sheet as loaded: a column count and the data rows
(each row listing the cells of the 6 positional columns). -/
structure RuleTable where
  ncols : Nat
  rows : List (List Cell)
  deriving DecidableEq, Repr

/-- One compiled rule, the value stored in `validation_spec` for a field
(app.py lines 149-154). `mandatory` is computed as
`str(flag).strip().upper() == "M"` (line 146). -/
structure FieldSpec where
  data_type : Cell
  mandatory : Bool
  validation : Cell
  description : Cell
  deriving DecidableEq, Repr

/-- Build the `FieldSpec` of one rule row (columns are positional:
1 = field name, 2 = data type, 3 = validation, 4 = mandatory flag,
5 = description, all 0-based). -/
def mkFieldSpec (row : List Cell) : FieldSpec :=
  { data_type := row.getD 2 Cell.null
    mandatory := strUpper (strTrim (row.getD 4 Cell.null).toPyStr) == "M"
    validation := row.getD 3 Cell.null
    description := row.getD 5 Cell.null }

/-- The field name key of one rule row (positional column 1). -/
def rowName (row : List Cell) : Cell := row.getD 1 Cell.null

/-- `validation_spec`: fold the rows into a Python dict keyed by field name
(app.py lines 141-154). A repeated name overwrites in place. -/
def buildSpec (rows : List (List Cell)) : List (Cell × FieldSpec) :=
  rows.foldl (fun m row => pyInsert m (rowName row) (mkFieldSpec row)) []

/-- The last rule row carrying a given field name, if any (the row whose
spec survives the dict overwrites). -/
def lastRowFor (k : Cell) : List (List Cell) → Option (List Cell)
  | [] => none
  | r :: t =>
    match lastRowFor k t with
    | some row => some row
    | none => if rowName r == k then some r else none

/-- First-occurrence deduplication: the key order a Python dict retains
under repeated assignment. -/
def dedupFirst {α : Type} [DecidableEq α] : List α → List α
  | [] => []
  | a :: t => a :: dedupFirst (t.filter (fun x => !(x == a)))
termination_by l => l.length
decreasing_by
  simp only [List.length_cons]
  exact Nat.lt_succ_of_le (List.length_filter_le _ _)

/-! ## Dataset -/

/-- A pandas `DataFrame`: ordered columns, each a name with its cell list
(row order is the list order, shared by all columns). -/
structure DataFrame where
  cols : List (String × List Cell)
  deriving DecidableEq, Repr

/-- `df.columns`. -/
def DataFrame.columns (df : DataFrame) : List String := pyKeys df.cols

/-- `df[c]` as an optional read. -/
def DataFrame.getCol (df : DataFrame) (c : String) : Option (List Cell) :=
  pyGet df.cols c

/-- `df[c] = vals`: replace the column in place, or append a new one. -/
def DataFrame.setCol (df : DataFrame) (c : String) (vs : List Cell) : DataFrame :=
  ⟨pyInsert df.cols c vs⟩

/-- Membership test `field in df_input.columns` for a raw field-name key
(app.py lines 186, 192): only a string key can match a column name. -/
def fieldInCols (key : Cell) (df : DataFrame) : Bool :=
  match key with
  | Cell.str f => df.columns.contains f
  | _ => false

/-! ## Findings

The code appends formatted message strings; the model keeps the finding
structured (which append site produced it, with its parameters) together
with a `msg` function reproducing the exact Python f-string, so that
"exactly one finding of a given kind for a given field" is stateable. -/

/-- A non-fixable finding appended to `non_fixable_errors`. -/
inductive Finding where
  | missingCols (fields : List Cell)
  | mandatory (field : String)
  | notNumeric (field : String)
  | pattern (field : String) (pat : String)
  deriving DecidableEq, Repr

/-- The exact message string app.py appends for each finding
(lines 188, 195, 202, 213). -/
def Finding.msg : Finding → String
  | Finding.missingCols fs =>
    "Missing columns: " ++ String.intercalate ", " (fs.map Cell.toPyStr)
  | Finding.mandatory f => "Field '" ++ f ++ "' is mandatory but contains missing values."
  | Finding.notNumeric f => "Field '" ++ f ++ "' should be numeric."
  | Finding.pattern f p =>
    "Field '" ++ f ++ "' does not match the expected pattern: " ++ p ++ "."

/-- A fixable finding, the value stored in `fixable_errors`. -/
inductive FixFinding where
  | masterDate (field : String)
  | headerFmt (field : String) (fmt : String)
  deriving DecidableEq, Repr

/-- The exact message string app.py stores for each fixable finding
(lines 207, 232). -/
def FixFinding.msg : FixFinding → String
  | FixFinding.masterDate f => "Field '" ++ f ++ "' should be a date (per master specification)."
  | FixFinding.headerFmt f fmt =>
    "Column '" ++ f ++ "' should be a date/time with format " ++ fmt ++ " (independent rule)."

/-! ## The validation pass (app.py lines 182-232) -/

/-- Interpretation of a rule's validation expression (app.py lines 209-210):
a regex constraint exactly when the value is a truthy string whose
lower-casing starts with `regex:`; the pattern is the original remainder
after the 6-character prefix, stripped. -/
def regexPattern (v : Cell) : Option String :=
  match v with
  | Cell.str s =>
    if s ≠ "" ∧ strStartsWith (strLower s) "regex:" then
      some (strTrim (strDropN s 6))
    else none
  | _ => none

/-- The non-fixable findings one `validation_spec` entry contributes
(app.py lines 191-213): the checks run only when the field name is a column
of the input; order within the field is mandatory, numeric, pattern.
`rmatch pat s` stands for `re.fullmatch(pat, s) is not None`. -/
def fieldNonFixables (rmatch : String → String → Bool) (df : DataFrame)
    (key : Cell) (s : FieldSpec) : List Finding :=
  match key with
  | Cell.str f =>
    match df.getCol f with
    | some vals =>
      (if s.mandatory && vals.any Cell.isNull then [Finding.mandatory f] else [])
        ++ (if strLower s.data_type.toPyStr == "number" && !(vals.all numericCellOk) then
              [Finding.notNumeric f]
            else [])
        ++ (match regexPattern s.validation with
            | some p =>
              if vals.any (fun v => !(rmatch p v.toPyStr)) then [Finding.pattern f p]
              else []
            | none => [])
    | none => []
  | _ => []

/-- The fixable entry one `validation_spec` entry contributes: the master
date check (app.py lines 203-207). -/
def fieldDateFix (df : DataFrame) (key : Cell) (s : FieldSpec) :
    Option (String × FixFinding) :=
  match key with
  | Cell.str f =>
    match df.getCol f with
    | some vals =>
      if strLower s.data_type.toPyStr == "date" && !(vals.all bestEffortCellOk) then
        some (f, FixFinding.masterDate f)
      else none
    | none => none
  | _ => none

/-- Header-driven format inference (app.py lines 222-227): `"time"` in the
lower-cased name wins over `"date"`. -/
def headerDesiredFormat (col : String) : Option String :=
  let lower := strLower col
  if containsSub "time" lower then some "%d-%m-%Y %H:%M"
  else if containsSub "date" lower && !(containsSub "time" lower) then some "%d-%m-%Y"
  else none

/-- The default date format offered in the fix prompt for a field
(app.py line 255). -/
def default_format (field : String) : String :=
  if containsSub "time" (strLower field) then "%d-%m-%Y %H:%M" else "%d-%m-%Y"

/-- The fixable-dict effect of one per-field iteration (the
`fixable_errors[field] = ...` assignment of app.py line 207, when it fires). -/
def dateStep (df : DataFrame) (fx : List (String × FixFinding)) (e : Cell × FieldSpec) :
    List (String × FixFinding) :=
  match fieldDateFix df e.1 e.2 with
  | some kv => pyInsert fx kv.1 kv.2
  | none => fx

/-- One iteration of the per-field master loop (app.py lines 191-213),
threading the non-fixable list and the fixable dict. -/
def specStep (rmatch : String → String → Bool) (df : DataFrame)
    (acc : List Finding × List (String × FixFinding)) (e : Cell × FieldSpec) :
    List Finding × List (String × FixFinding) :=
  (acc.1 ++ fieldNonFixables rmatch df e.1 e.2, dateStep df acc.2 e)

/-- One iteration of the independent header loop (app.py lines 221-232). -/
def headerStep (acc : List (String × FixFinding)) (c : String × List Cell) :
    List (String × FixFinding) :=
  match headerDesiredFormat c.1 with
  | some fmt =>
    if strictColOk fmt c.2 then acc
    else pyInsert acc c.1 (FixFinding.headerFmt c.1 fmt)
  | none => acc

/-- The partitioned error report of one validation pass. -/
structure Report where
  nonFixable : List Finding
  fixable : List (String × FixFinding)
  deriving DecidableEq, Repr

/-- The complete validation pass (app.py lines 182-232): missing-column
check, per-field master checks in `validation_spec` order, then the
header-driven check over every dataset column. -/
def validatePass (rmatch : String → String → Bool) (spec : List (Cell × FieldSpec))
    (expected : List Cell) (df : DataFrame) : Report :=
  let missing := expected.filter (fun f => !(fieldInCols f df))
  let nf0 : List Finding :=
    if missing.isEmpty then [] else [Finding.missingCols missing]
  let p := spec.foldl (specStep rmatch df) (nf0, [])
  { nonFixable := p.1, fixable := df.cols.foldl headerStep p.2 }

/-- The run from rule-table load to report (app.py lines 119-232): a rule
sheet without exactly 6 columns aborts with the schema error (lines 121-123,
`st.error` + `st.stop`), producing no spec and attempting no validation. -/
def runPipeline (rmatch : String → String → Bool) (table : RuleTable)
    (df : DataFrame) :
    Except String (List (Cell × FieldSpec) × List Cell × Report) :=
  if table.ncols = 6 then
    let spec := buildSpec table.rows
    Except.ok (spec, pyKeys spec, validatePass rmatch spec (pyKeys spec) df)
  else
    Except.error
      "The selected validation sheet must contain exactly 6 columns (in the correct order)."

/-- A validation run as a step over the session state: it reads the working
dataframe (app.py line 174) and writes nothing back, so it returns the
report together with the dataframe it leaves in the session. -/
def runValidation (rmatch : String → String → Bool) (spec : List (Cell × FieldSpec))
    (expected : List Cell) (df : DataFrame) : Report × DataFrame :=
  (validatePass rmatch spec expected df, df)

/-! ## Coercion (app.py lines 249-273) -/

/-- The target type offered by the fix prompt's drop-down (line 250). -/
inductive TargetType where
  | string
  | number
  | date
  deriving DecidableEq, Repr

/-- One submitted fix: field, chosen target type, and (for `date`) the
format text-input value. -/
structure CoercionRequest where
  field : String
  target : TargetType
  fmt : String
  deriving DecidableEq, Repr

/-- Days from the civil epoch origin for a valid date. -/
def daysBeforeMonth (m : Nat) : Nat :=
  match m with
  | 1 => 0 | 2 => 31 | 3 => 59 | 4 => 90 | 5 => 120 | 6 => 151
  | 7 => 181 | 8 => 212 | 9 => 243 | 10 => 273 | 11 => 304 | _ => 334

/-- Days from year 1, month 1, day 1 (proleptic Gregorian). -/
def daysFromCivil (y m d : Nat) : Nat :=
  365 * (y - 1) + (y - 1) / 4 - (y - 1) / 100 + (y - 1) / 400
    + daysBeforeMonth m + (if isLeap y ∧ 3 ≤ m then 1 else 0) + (d - 1)

/-- Epoch seconds of a timestamp (model of the numeric value a datetime
converts to under `pandas.to_numeric`; pandas uses nanoseconds, the unit is
irrelevant to every claim). -/
def epochSeconds (d : DateTimeVal) : Int :=
  ((daysFromCivil d.year d.month d.day : Int) - (daysFromCivil 1970 1 1 : Int)) * 86400
    + (d.hour : Int) * 3600 + (d.minute : Int) * 60 + (d.second : Int)

/-- `pd.to_datetime(cell, format=toks, errors='coerce')` element-wise:
anything unparseable becomes the missing marker (`NaT`). -/
def coerceDateCell (toks : List FmtTok) : Cell → Cell
  | Cell.null => Cell.null
  | Cell.str s =>
    match parseWithToks toks s with
    | some d => Cell.date d
    | none => Cell.null
  | Cell.num _ => Cell.null
  | Cell.date d => Cell.date d

/-- `pd.to_numeric(cell, errors='coerce')` element-wise: anything
unconvertible becomes the missing marker (`NaN`). -/
def coerceNumCell : Cell → Cell
  | Cell.null => Cell.null
  | Cell.num q => Cell.num q
  | Cell.str s =>
    match parseNumeric s with
    | some q => Cell.num q
    | none => Cell.null
  | Cell.date d => Cell.num ⟨epochSeconds d, 0⟩

/-- The element-wise conversion a submitted fix applies to the column. -/
def coerceCell (t : TargetType) (toks : List FmtTok) : Cell → Cell :=
  match t with
  | TargetType.string => fun c => Cell.str c.toPyStr
  | TargetType.number => coerceNumCell
  | TargetType.date => coerceDateCell toks

/-- Does the chosen conversion parse this cell to a non-missing value?
(The missing marker itself does not count as parsed.) -/
def cellParses (t : TargetType) (toks : List FmtTok) : Cell → Bool
  | Cell.null => t == TargetType.string
  | Cell.str s =>
    match t with
    | TargetType.string => true
    | TargetType.number => (parseNumeric s).isSome
    | TargetType.date => (parseWithToks toks s).isSome
  | Cell.num _ => t != TargetType.date
  | Cell.date _ => true

/-- The body of the Submit Fix handler (app.py lines 257-265) on a copy of
the working dataframe: reading a missing column raises `KeyError`, a bad
date format raises `ValueError`; both are caught by the handler's `except`
(line 272).  Otherwise the one column is replaced wholesale. -/
def applyFix (req : CoercionRequest) (df : DataFrame) : Except String DataFrame :=
  match df.getCol req.field with
  | none => Except.error ("KeyError: " ++ req.field)
  | some vals =>
    match req.target with
    | TargetType.date =>
      match compileFormat req.fmt.data with
      | some toks => Except.ok (df.setCol req.field (vals.map (coerceDateCell toks)))
      | none => Except.error ("bad directive in format " ++ req.fmt)
    | TargetType.number => Except.ok (df.setCol req.field (vals.map coerceNumCell))
    | TargetType.string =>
      Except.ok (df.setCol req.field (vals.map (fun c => Cell.str c.toPyStr)))

/-- The session-state effect of Submit Fix (app.py lines 258, 267, 272):
the handler works on a copy, stores it back only on success, and leaves
`st.session_state.df_input` untouched when an exception is caught. -/
def submitFix (req : CoercionRequest) (session : DataFrame) : DataFrame :=
  match applyFix req session with
  | Except.ok df2 => df2
  | Except.error _ => session

example : compileFormat "%d-%m-%Y".data =
    some [FmtTok.day, FmtTok.lit '-', FmtTok.month, FmtTok.lit '-', FmtTok.year4] := by
  decide

example : (parseWithToks [FmtTok.day, FmtTok.lit '-', FmtTok.month, FmtTok.lit '-', FmtTok.year4]
    "29-02-2024").isSome = true := by decide

example : (parseWithToks [FmtTok.day, FmtTok.lit '-', FmtTok.month, FmtTok.lit '-', FmtTok.year4]
    "31-02-2024").isSome = false := by decide

example : parseNumeric "12" = some ⟨12, 0⟩ := by decide

example : parseNumeric "x" = none := by decide

example : parseNumeric "-2.5" = some ⟨-25, -1⟩ := by decide

example : strTrim " m " = "m" := by decide

example : strUpper "m" = "M" := by decide

example : containsSub "time" (strLower "EventTime") = true := by decide

example : containsSub "date" (strLower "EventDate") = true := by decide

example :
    validatePass (fun _ _ => true)
      (buildSpec [[Cell.str "F01", Cell.str "Region", Cell.str "string", Cell.str "",
        Cell.str "M", Cell.str ""]])
      [Cell.str "Region"]
      ⟨[("Region", [Cell.str "x", Cell.null])]⟩
    = { nonFixable := [Finding.mandatory "Region"], fixable := [] } := by decide

example :
    validatePass (fun _ _ => true) [] []
      ⟨[("EventDate", [Cell.str "31-02-2024"])]⟩
    = { nonFixable := [],
        fixable := [("EventDate", FixFinding.headerFmt "EventDate" "%d-%m-%Y")] } := by
  decide

example :
    validatePass (fun p v => p == "^[A-Z]\x7b2\x7d\\d\x7b4\x7d$" && v == "AB1234")
      (buildSpec [[Cell.str "F02", Cell.str "Code", Cell.str "string",
        Cell.str "regex:^[A-Z]\x7b2\x7d\\d\x7b4\x7d$", Cell.str "O", Cell.str ""]])
      [Cell.str "Code"]
      ⟨[("Code", [Cell.str "ab123"])]⟩
    = { nonFixable := [Finding.pattern "Code" "^[A-Z]\x7b2\x7d\\d\x7b4\x7d$"],
        fixable := [] } := by decide

example :
    applyFix ⟨"Amount", TargetType.number, ""⟩
      ⟨[("Amount", [Cell.str "12", Cell.str "x", Cell.str "7"]), ("B", [Cell.null])]⟩
    = Except.ok
        ⟨[("Amount", [Cell.num ⟨12, 0⟩, Cell.null, Cell.num ⟨7, 0⟩]), ("B", [Cell.null])]⟩ := rfl

example :
    validatePass (fun _ _ => true)
      (buildSpec [[Cell.str "F03", Cell.str "EventDate", Cell.str "date", Cell.str "",
        Cell.str "O", Cell.str ""]])
      [Cell.str "EventDate"]
      ⟨[("EventDate", [Cell.str "31-02-2024"])]⟩
    = { nonFixable := [],
        fixable := [("EventDate", FixFinding.headerFmt "EventDate" "%d-%m-%Y")] } := by
  decide

example :
    applyFix ⟨"D", TargetType.date, "%Q"⟩ ⟨[("D", [Cell.str "x"])]⟩
    = Except.error ("bad directive in format %Q") := rfl

/-! # Theorems

First the association-list theory of the Python-dict model, then the fold
decompositions of the validation pass, then one theorem per claim. -/

section PyDictLemmas

variable {α β : Type} [DecidableEq α]

theorem pyGet_eq_none_iff (m : List (α × β)) (k : α) :
    pyGet m k = none ↔ k ∉ pyKeys m := by
  induction m with
  | nil => simp [pyGet, pyKeys]
  | cons p t ih =>
    obtain ⟨a, b⟩ := p
    by_cases h : a = k
    · subst h; simp [pyGet, pyKeys]
    · simp [pyGet, pyKeys, h, ih, Ne.symm h]

theorem pyGet_append (m1 m2 : List (α × β)) (k : α) :
    pyGet (m1 ++ m2) k =
      match pyGet m1 k with
      | some v => some v
      | none => pyGet m2 k := by
  induction m1 with
  | nil => simp [pyGet]
  | cons p t ih =>
    obtain ⟨a, b⟩ := p
    by_cases h : a = k
    · simp [pyGet, h]
    · simp [pyGet, h, ih]

theorem pyGet_insert_self (m : List (α × β)) (k : α) (v : β) :
    pyGet (pyInsert m k v) k = some v := by
  induction m with
  | nil => simp [pyInsert, pyGet]
  | cons p t ih =>
    obtain ⟨a, b⟩ := p
    by_cases h : a = k
    · simp [pyInsert, pyGet, h]
    · simp [pyInsert, pyGet, h, ih]

theorem pyGet_insert_ne (m : List (α × β)) (k k' : α) (v : β) (h : k' ≠ k) :
    pyGet (pyInsert m k v) k' = pyGet m k' := by
  induction m with
  | nil => simp [pyInsert, pyGet, Ne.symm h]
  | cons p t ih =>
    obtain ⟨a, b⟩ := p
    by_cases ha : a = k
    · subst ha
      simp [pyInsert, pyGet, Ne.symm h]
    · by_cases ha' : a = k'
      · subst ha'
        simp [pyInsert, pyGet, ha]
      · simp [pyInsert, pyGet, ha, ha', ih]

theorem pyKeys_insert_mem (m : List (α × β)) (k : α) (v : β) (h : k ∈ pyKeys m) :
    pyKeys (pyInsert m k v) = pyKeys m := by
  induction m with
  | nil => simp [pyKeys] at h
  | cons p t ih =>
    obtain ⟨a, b⟩ := p
    by_cases ha : a = k
    · simp [pyInsert, pyKeys, ha]
    · simp only [pyKeys, List.map_cons, List.mem_cons] at h
      rcases h with h1 | h1
      · exact absurd h1.symm ha
      · have h2 := ih (by simpa [pyKeys] using h1)
        simp only [pyKeys] at h2
        simp [pyInsert, pyKeys, ha, h2]

theorem pyKeys_insert_not_mem (m : List (α × β)) (k : α) (v : β) (h : k ∉ pyKeys m) :
    pyKeys (pyInsert m k v) = pyKeys m ++ [k] := by
  induction m with
  | nil => simp [pyInsert, pyKeys]
  | cons p t ih =>
    obtain ⟨a, b⟩ := p
    simp only [pyKeys, List.map_cons, List.mem_cons, not_or] at h
    have ha : a ≠ k := fun hc => h.1 hc.symm
    have h2 := ih (by simpa [pyKeys] using h.2)
    simp only [pyKeys] at h2
    simp [pyInsert, pyKeys, ha, h2]

theorem pyKeys_insert_nodup (m : List (α × β)) (k : α) (v : β)
    (h : (pyKeys m).Nodup) : (pyKeys (pyInsert m k v)).Nodup := by
  by_cases hmem : k ∈ pyKeys m
  · rw [pyKeys_insert_mem m k v hmem]; exact h
  · rw [pyKeys_insert_not_mem m k v hmem]
    simpa [List.nodup_append] using ⟨h, hmem⟩

theorem filter_key_eq_nil (m : List (α × β)) (k : α) (h : k ∉ pyKeys m) :
    m.filter (fun p => p.1 == k) = [] := by
  induction m with
  | nil => rfl
  | cons p t ih =>
    obtain ⟨a, b⟩ := p
    simp only [pyKeys, List.map_cons, List.mem_cons, not_or] at h
    have ha : (a == k) = false := by
      simp only [beq_eq_false_iff_ne, ne_eq]
      exact fun hc => h.1 (hc ▸ rfl)
    simp [List.filter, ha, ih h.2]

theorem filter_key_singleton (m : List (α × β)) (k : α) (v : β)
    (hnd : (pyKeys m).Nodup) (hget : pyGet m k = some v) :
    m.filter (fun p => p.1 == k) = [(k, v)] := by
  induction m with
  | nil => simp [pyGet] at hget
  | cons p t ih =>
    obtain ⟨a, b⟩ := p
    simp only [pyKeys, List.map_cons, List.nodup_cons] at hnd
    by_cases ha : a = k
    · subst ha
      simp only [pyGet, if_pos, Option.some_inj] at hget
      subst hget
      simp [List.filter, filter_key_eq_nil t a hnd.1]
    · have hget' : pyGet t k = some v := by simpa [pyGet, ha] using hget
      have ha' : (a == k) = false := by simp [ha]
      simp [List.filter, ha', ih hnd.2 hget']

end PyDictLemmas

section EngineLemmas

variable (rmatch : String → String → Bool) (df : DataFrame)

/-- The per-field master loop decomposes into the concatenated non-fixable
findings and the fold of the fixable-dict assignments. -/
theorem specFold_eq (spec : List (Cell × FieldSpec))
    (nf : List Finding) (fx : List (String × FixFinding)) :
    spec.foldl (specStep rmatch df) (nf, fx)
      = (nf ++ spec.flatMap (fun e => fieldNonFixables rmatch df e.1 e.2),
         spec.foldl (dateStep df) fx) := by
  induction spec generalizing nf fx with
  | nil => simp
  | cons e rest ih =>
    simp only [List.foldl_cons, List.flatMap_cons, specStep]
    rw [ih]
    simp [List.append_assoc]

/-- The master date loop only ever assigns into the fixable dict, so key
uniqueness is preserved. -/
theorem dateFold_keys_nodup (spec : List (Cell × FieldSpec))
    (fx : List (String × FixFinding)) (h : (pyKeys fx).Nodup) :
    (pyKeys (spec.foldl (dateStep df) fx)).Nodup := by
  induction spec generalizing fx with
  | nil => exact h
  | cons e rest ih =>
    rw [List.foldl_cons]
    apply ih
    unfold dateStep
    cases hd : fieldDateFix df e.1 e.2 with
    | none => exact h
    | some kv => exact pyKeys_insert_nodup _ _ _ h

/-- The header loop only ever assigns into the fixable dict, so key
uniqueness is preserved. -/
theorem headerFold_keys_nodup (cols : List (String × List Cell))
    (fx : List (String × FixFinding)) (h : (pyKeys fx).Nodup) :
    (pyKeys (cols.foldl headerStep fx)).Nodup := by
  induction cols generalizing fx with
  | nil => exact h
  | cons c rest ih =>
    rw [List.foldl_cons]
    apply ih
    unfold headerStep
    cases hd : headerDesiredFormat c.1 with
    | none => exact h
    | some fmt =>
      by_cases hs : strictColOk fmt c.2
      · simp [hs, h]
      · simp only [hs, Bool.false_eq_true, if_neg, not_false_iff]
        exact pyKeys_insert_nodup _ _ _ h

/-- Once the fixable dict maps a name to its header-format finding, the rest
of the header loop cannot change that entry: a later column of the same name
infers the same format and overwrites with the identical finding. -/
theorem headerFold_get_preserved (cols : List (String × List Cell))
    (fx : List (String × FixFinding)) (f fmt : String)
    (hfmt : headerDesiredFormat f = some fmt)
    (hget : pyGet fx f = some (FixFinding.headerFmt f fmt)) :
    pyGet (cols.foldl headerStep fx) f = some (FixFinding.headerFmt f fmt) := by
  induction cols generalizing fx with
  | nil => exact hget
  | cons c rest ih =>
    rw [List.foldl_cons]
    apply ih
    unfold headerStep
    cases hc : headerDesiredFormat c.1 with
    | none => exact hget
    | some fmt2 =>
      by_cases hs : strictColOk fmt2 c.2
      · simp [hs, hget]
      · simp only [hs, Bool.false_eq_true, if_neg, not_false_iff]
        by_cases hcf : c.1 = f
        · subst hcf
          rw [hc] at hfmt
          cases hfmt
          exact pyGet_insert_self _ _ _
        · rw [pyGet_insert_ne _ _ _ _ (fun hc2 => hcf hc2.symm)]
          exact hget

/-- If the first dataset column named `f` fails its header-inferred strict
format, the header loop leaves exactly the header-format finding under `f`. -/
theorem headerFold_get (cols : List (String × List Cell))
    (fx : List (String × FixFinding)) (f : String) (vals : List Cell) (fmt : String)
    (hcol : pyGet cols f = some vals)
    (hfmt : headerDesiredFormat f = some fmt)
    (hfail : strictColOk fmt vals = false) :
    pyGet (cols.foldl headerStep fx) f = some (FixFinding.headerFmt f fmt) := by
  induction cols generalizing fx with
  | nil => simp [pyGet] at hcol
  | cons c rest ih =>
    obtain ⟨cn, cvals⟩ := c
    by_cases hcf : cn = f
    · subst hcf
      simp only [pyGet, if_pos, Option.some_inj] at hcol
      subst hcol
      have hstep : headerStep fx (cn, cvals) =
          pyInsert fx cn (FixFinding.headerFmt cn fmt) := by
        simp [headerStep, hfmt, hfail]
      rw [List.foldl_cons, hstep]
      exact headerFold_get_preserved rest _ cn fmt hfmt (pyGet_insert_self _ _ _)
    · have hcol' : pyGet rest f = some vals := by simpa [pyGet, hcf] using hcol
      rw [List.foldl_cons]
      exact ih _ hcol'

/-- The fixable dict of a full validation pass has pairwise distinct keys:
a field shows at most one fixable entry to the operator. -/
theorem validate_fixable_nodup (spec : List (Cell × FieldSpec))
    (expected : List Cell) :
    (pyKeys (validatePass rmatch spec expected df).fixable).Nodup := by
  simp only [validatePass]
  rw [specFold_eq]
  exact headerFold_keys_nodup _ _ (dateFold_keys_nodup df spec [] (by simp [pyKeys]))

/-- The fix prompt's default format agrees with the header-inferred format
whenever the latter exists. -/
theorem default_format_of_header (f fmt : String)
    (h : headerDesiredFormat f = some fmt) : default_format f = fmt := by
  unfold headerDesiredFormat at h
  unfold default_format
  by_cases ht : containsSub "time" (strLower f)
  · simp only [ht, if_pos, Option.some_inj] at h
    simp [ht, h]
  · by_cases hd : containsSub "date" (strLower f)
    · simp only [ht, hd, Bool.false_eq_true, if_neg, not_false_iff, Bool.not_false,
        Bool.and_self, if_pos, Option.some_inj] at h
      simp [ht, h]
    · simp [ht, hd] at h

end EngineLemmas

/-- Replacing one existing column leaves the column list and every other
column untouched, and the named column holds exactly the new values. -/
theorem setCol_props (df : DataFrame) (f : String) (nv : List Cell)
    (hmem : f ∈ pyKeys df.cols) :
    (df.setCol f nv).columns = df.columns
      ∧ (∀ c, c ≠ f → (df.setCol f nv).getCol c = df.getCol c)
      ∧ (df.setCol f nv).getCol f = some nv := by
  refine ⟨?_, ?_, ?_⟩
  · unfold DataFrame.setCol DataFrame.columns
    exact pyKeys_insert_mem _ _ _ hmem
  · intro c hc
    unfold DataFrame.setCol DataFrame.getCol
    exact pyGet_insert_ne _ _ _ _ hc
  · unfold DataFrame.setCol DataFrame.getCol
    exact pyGet_insert_self _ _ _

/-- A readable column name is a member of the key list. -/
theorem getCol_mem (df : DataFrame) (f : String) (vals : List Cell)
    (h : df.getCol f = some vals) : f ∈ pyKeys df.cols := by
  by_contra hn
  have := (pyGet_eq_none_iff df.cols f).mpr hn
  unfold DataFrame.getCol at h
  rw [this] at h
  cases h

/-- C4: a rule table whose column count differs from 6 makes the run fail
with the schema error message; no `ValidationSpec` is produced and no
validation output of any kind exists. -/
theorem schema_error_aborts_run (rmatch : String → String → Bool)
    (table : RuleTable) (df : DataFrame) (h : table.ncols ≠ 6) :
    runPipeline rmatch table df =
        Except.error
          "The selected validation sheet must contain exactly 6 columns (in the correct order)."
      ∧ ∀ out, runPipeline rmatch table df ≠ Except.ok out := by
  constructor
  · simp [runPipeline, h]
  · intro out hc
    simp [runPipeline, h] at hc

/-- Witness for C4 at a concrete 5-column rule table. -/
theorem schema_error_aborts_run_witness :
    runPipeline (fun _ _ => true) ⟨5, [[Cell.str "x"]]⟩ ⟨[]⟩ =
      Except.error
        "The selected validation sheet must contain exactly 6 columns (in the correct order)." :=
  (schema_error_aborts_run (fun _ _ => true) ⟨5, [[Cell.str "x"]]⟩ ⟨[]⟩ (by decide)).1

/-- C9: a validation run leaves the session dataset unchanged, and running
the engine a second time on the snapshot the first run left behind yields
the identical findings (same non-fixable list, same fixable mapping). -/
theorem validation_idempotent_pure (rmatch : String → String → Bool)
    (spec : List (Cell × FieldSpec)) (expected : List Cell) (df : DataFrame) :
    (runValidation rmatch spec expected df).2 = df
      ∧ (runValidation rmatch spec expected
            ((runValidation rmatch spec expected df).2)).1
        = (runValidation rmatch spec expected df).1 :=
  ⟨rfl, rfl⟩

/-- C8: a `string` coercion succeeds on any column and replaces each cell by
the string form of its original value, dropping nothing and keeping the row
order (the result is the element-wise map over the original values). -/
theorem string_coercion_total (req : CoercionRequest) (df : DataFrame)
    (vals : List Cell) (ht : req.target = TargetType.string)
    (hcol : df.getCol req.field = some vals) :
    ∃ df2, applyFix req df = Except.ok df2
      ∧ df2.getCol req.field = some (vals.map (fun c => Cell.str c.toPyStr))
      ∧ (vals.map (fun c => Cell.str c.toPyStr)).length = vals.length := by
  refine ⟨df.setCol req.field (vals.map (fun c => Cell.str c.toPyStr)), ?_, ?_, ?_⟩
  · simp [applyFix, hcol, ht]
  · exact (setCol_props df req.field _ (getCol_mem df req.field vals hcol)).2.2
  · simp

/-- Witness for C8: stringifying a column holding a missing marker and a
string. -/
theorem string_coercion_total_witness :
    ∃ df2,
      applyFix ⟨"A", TargetType.string, ""⟩ ⟨[("A", [Cell.null, Cell.str "x"])]⟩ =
        Except.ok df2
      ∧ df2.getCol "A" = some ([Cell.null, Cell.str "x"].map (fun c => Cell.str c.toPyStr))
      ∧ ([Cell.null, Cell.str "x"].map (fun c => Cell.str c.toPyStr)).length =
          [Cell.null, Cell.str "x"].length :=
  string_coercion_total ⟨"A", TargetType.string, ""⟩
    ⟨[("A", [Cell.null, Cell.str "x"])]⟩ [Cell.null, Cell.str "x"] rfl rfl

/-- C6: a coercion to `number` or `date` (the latter under a well-formed
format) succeeds as a whole; the target column becomes the element-wise
conversion of its old values, in which every unparseable cell is the
explicit missing marker, and every other column is unchanged. -/
theorem coerce_unparseable_to_missing (req : CoercionRequest) (df : DataFrame)
    (vals : List Cell) (toks : List FmtTok)
    (hcol : df.getCol req.field = some vals)
    (ht : req.target = TargetType.number ∨ req.target = TargetType.date)
    (hfmt : req.target = TargetType.date → compileFormat req.fmt.data = some toks) :
    ∃ df2, applyFix req df = Except.ok df2
      ∧ df2.getCol req.field = some (vals.map (coerceCell req.target toks))
      ∧ (∀ c, c ≠ req.field → df2.getCol c = df.getCol c)
      ∧ ∀ v ∈ vals, cellParses req.target toks v = false →
          coerceCell req.target toks v = Cell.null := by
  have hmem := getCol_mem df req.field vals hcol
  rcases ht with ht | ht
  · refine ⟨df.setCol req.field (vals.map coerceNumCell), ?_, ?_, ?_, ?_⟩
    · simp [applyFix, hcol, ht]
    · have hfun : coerceCell req.target toks = coerceNumCell := by rw [ht]; rfl
      rw [hfun]
      exact (setCol_props df req.field _ hmem).2.2
    · exact (setCol_props df req.field _ hmem).2.1
    · intro v _ hp
      rw [ht] at hp ⊢
      cases v with
      | null => rfl
      | str s =>
        simp only [cellParses] at hp
        cases hps : parseNumeric s with
        | none => simp [coerceCell, coerceNumCell, hps]
        | some q => rw [hps] at hp; simp at hp
      | num q => simp [cellParses] at hp
      | date d => simp [cellParses] at hp
  · have htoks := hfmt ht
    refine ⟨df.setCol req.field (vals.map (coerceDateCell toks)), ?_, ?_, ?_, ?_⟩
    · simp [applyFix, hcol, ht, htoks]
    · have hfun : coerceCell req.target toks = coerceDateCell toks := by rw [ht]; rfl
      rw [hfun]
      exact (setCol_props df req.field _ hmem).2.2
    · exact (setCol_props df req.field _ hmem).2.1
    · intro v _ hp
      rw [ht] at hp ⊢
      cases v with
      | null => rfl
      | str s =>
        simp only [cellParses] at hp
        cases hps : parseWithToks toks s with
        | none => simp [coerceCell, coerceDateCell, hps]
        | some d => rw [hps] at hp; simp at hp
      | num q => simp [coerceCell, coerceDateCell]
      | date d => simp [cellParses] at hp

/-- Witness for C6: Scenario D — coercing `["12", "x", "7"]` to `number`. -/
theorem coerce_unparseable_to_missing_witness :
    ∃ df2,
      applyFix ⟨"Amount", TargetType.number, ""⟩
          ⟨[("Amount", [Cell.str "12", Cell.str "x", Cell.str "7"])]⟩ = Except.ok df2
      ∧ df2.getCol "Amount" =
          some ([Cell.str "12", Cell.str "x", Cell.str "7"].map
            (coerceCell TargetType.number []))
      ∧ (∀ c, c ≠ "Amount" →
          df2.getCol c =
            DataFrame.getCol ⟨[("Amount", [Cell.str "12", Cell.str "x", Cell.str "7"])]⟩ c)
      ∧ ∀ v ∈ [Cell.str "12", Cell.str "x", Cell.str "7"],
          cellParses TargetType.number [] v = false →
            coerceCell TargetType.number [] v = Cell.null :=
  coerce_unparseable_to_missing ⟨"Amount", TargetType.number, ""⟩
    ⟨[("Amount", [Cell.str "12", Cell.str "x", Cell.str "7"])]⟩
    [Cell.str "12", Cell.str "x", Cell.str "7"] [] rfl (Or.inl rfl) (fun h => nomatch h)

/-- C7: submitting a fix is atomic on the session dataset — if applying the
coercion raises, the working dataset is left completely unchanged; on
success exactly the target column is replaced (by the element-wise
conversion of its old values) and the column list and every other column
are unchanged. -/
theorem coercion_atomic (req : CoercionRequest) (df : DataFrame) :
    (∀ e, applyFix req df = Except.error e → submitFix req df = df)
      ∧ ∀ df2, applyFix req df = Except.ok df2 →
          submitFix req df = df2
            ∧ df2.columns = df.columns
            ∧ (∀ c, c ≠ req.field → df2.getCol c = df.getCol c)
            ∧ ∃ vals, df.getCol req.field = some vals
                ∧ df2.getCol req.field =
                    some (vals.map (coerceCell req.target
                      ((compileFormat req.fmt.data).getD []))) := by
  constructor
  · intro e he
    simp [submitFix, he]
  · intro df2 h2
    have hsub : submitFix req df = df2 := by simp [submitFix, h2]
    cases hcol : df.getCol req.field with
    | none => simp [applyFix, hcol] at h2
    | some vals =>
      have hmem := getCol_mem df req.field vals hcol
      refine ⟨hsub, ?_⟩
      cases ht : req.target with
      | string =>
        simp only [applyFix, hcol, ht, Except.ok.injEq] at h2
        subst h2
        obtain ⟨hc1, hc2, hc3⟩ :=
          setCol_props df req.field (vals.map (fun c => Cell.str c.toPyStr)) hmem
        exact ⟨hc1, hc2, vals, rfl, by simpa [coerceCell] using hc3⟩
      | number =>
        simp only [applyFix, hcol, ht, Except.ok.injEq] at h2
        subst h2
        obtain ⟨hc1, hc2, hc3⟩ :=
          setCol_props df req.field (vals.map coerceNumCell) hmem
        exact ⟨hc1, hc2, vals, rfl, by simpa [coerceCell] using hc3⟩
      | date =>
        cases hcf : compileFormat req.fmt.data with
        | none => simp [applyFix, hcol, ht, hcf] at h2
        | some toks =>
          simp only [applyFix, hcol, ht, hcf, Except.ok.injEq] at h2
          subst h2
          obtain ⟨hc1, hc2, hc3⟩ :=
            setCol_props df req.field (vals.map (coerceDateCell toks)) hmem
          refine ⟨hc1, hc2, vals, rfl, ?_⟩
          simpa [coerceCell] using hc3

/-- Witness for C7: a bad date format leaves the session unchanged, and a
successful string fix stores the coerced dataframe. -/
theorem coercion_atomic_witness :
    submitFix ⟨"D", TargetType.date, "%Q"⟩ ⟨[("D", [Cell.str "x"])]⟩ =
        ⟨[("D", [Cell.str "x"])]⟩
      ∧ submitFix ⟨"A", TargetType.string, ""⟩ ⟨[("A", [Cell.null])]⟩ =
          ⟨[("A", [Cell.str "nan"])]⟩ := by
  constructor
  · exact (coercion_atomic ⟨"D", TargetType.date, "%Q"⟩ ⟨[("D", [Cell.str "x"])]⟩).1
      "bad directive in format %Q" rfl
  · exact ((coercion_atomic ⟨"A", TargetType.string, ""⟩ ⟨[("A", [Cell.null])]⟩).2
      ⟨[("A", [Cell.str "nan"])]⟩ rfl).1

/-- The fixable dict of a validation pass is the header loop run on top of
the master-date loop. -/
theorem validate_fixable_eq (rmatch : String → String → Bool)
    (spec : List (Cell × FieldSpec)) (expected : List Cell) (df : DataFrame) :
    (validatePass rmatch spec expected df).fixable =
      df.cols.foldl headerStep (spec.foldl (dateStep df) []) := by
  simp only [validatePass]
  rw [specFold_eq]

/-- C3: for a dataset column whose name contains `"time"` (case-insensitive)
the header check enforces `%d-%m-%Y %H:%M`, for a `"date"`-but-not-`"time"`
column it enforces `%d-%m-%Y`; when the column's values fail that strict
parse, the fixable report holds exactly one entry for the column — the
header-format finding — and the fix prompt's default format is the inferred
format.  The spec of the rule table is arbitrary: the check runs for every
dataset column whether or not it appears in the ValidationSpec. -/
theorem header_format_check (rmatch : String → String → Bool)
    (spec : List (Cell × FieldSpec)) (expected : List Cell) (df : DataFrame)
    (col : String) (vals : List Cell) (fmt : String)
    (hcol : df.getCol col = some vals)
    (hfmt : headerDesiredFormat col = some fmt)
    (hfail : strictColOk fmt vals = false) :
    (validatePass rmatch spec expected df).fixable.filter (fun p => p.1 == col)
        = [(col, FixFinding.headerFmt col fmt)]
      ∧ default_format col = fmt
      ∧ (containsSub "time" (strLower col) = true → fmt = "%d-%m-%Y %H:%M")
      ∧ (containsSub "time" (strLower col) = false →
          containsSub "date" (strLower col) = true → fmt = "%d-%m-%Y") := by
  have hget : pyGet (validatePass rmatch spec expected df).fixable col =
      some (FixFinding.headerFmt col fmt) := by
    rw [validate_fixable_eq]
    exact headerFold_get df.cols _ col vals fmt hcol hfmt hfail
  refine ⟨filter_key_singleton _ _ _ (validate_fixable_nodup rmatch df spec expected) hget,
    default_format_of_header _ _ hfmt, ?_, ?_⟩
  · intro ht
    unfold headerDesiredFormat at hfmt
    simp only [ht, if_pos, Option.some_inj] at hfmt
    exact hfmt.symm
  · intro ht hd
    unfold headerDesiredFormat at hfmt
    simp only [ht, hd, Bool.false_eq_true, if_neg, not_false_iff, Bool.not_false,
      Bool.and_self, if_pos, Option.some_inj] at hfmt
    exact hfmt.symm

/-- Witness for C3: Scenario B — column `EventDate` holding the invalid
calendar date `31-02-2024`, with an empty rule spec. -/
theorem header_format_check_witness :
    (validatePass (fun _ _ => true) [] []
        ⟨[("EventDate", [Cell.str "31-02-2024"])]⟩).fixable.filter
          (fun p => p.1 == "EventDate")
        = [("EventDate", FixFinding.headerFmt "EventDate" "%d-%m-%Y")]
      ∧ default_format "EventDate" = "%d-%m-%Y"
      ∧ (containsSub "time" (strLower "EventDate") = true → "%d-%m-%Y" = "%d-%m-%Y %H:%M")
      ∧ (containsSub "time" (strLower "EventDate") = false →
          containsSub "date" (strLower "EventDate") = true → "%d-%m-%Y" = "%d-%m-%Y") :=
  header_format_check (fun _ _ => true) [] []
    ⟨[("EventDate", [Cell.str "31-02-2024"])]⟩ "EventDate" [Cell.str "31-02-2024"]
    "%d-%m-%Y" rfl (by decide) (by decide)

/-- C1: when both the master-rule date check (the field's master data type
is `date` and the best-effort full-column parse fails) and the header-driven
strict format check fail for the same field, the fixable report contains
exactly one entry for the field, and it is the header-format finding
carrying the header-inferred format, which is also the format pre-filled in
the fix prompt. -/
theorem header_fix_overrides_master_date (rmatch : String → String → Bool)
    (spec : List (Cell × FieldSpec)) (expected : List Cell) (df : DataFrame)
    (f : String) (s : FieldSpec) (vals : List Cell) (fmt : String)
    (hspec : pyGet spec (Cell.str f) = some s)
    (hdate : strLower s.data_type.toPyStr = "date")
    (hcol : df.getCol f = some vals)
    (hmaster : vals.all bestEffortCellOk = false)
    (hfmt : headerDesiredFormat f = some fmt)
    (hheader : strictColOk fmt vals = false) :
    (validatePass rmatch spec expected df).fixable.filter (fun p => p.1 == f)
        = [(f, FixFinding.headerFmt f fmt)]
      ∧ default_format f = fmt := by
  have hget : pyGet (validatePass rmatch spec expected df).fixable f =
      some (FixFinding.headerFmt f fmt) := by
    rw [validate_fixable_eq]
    exact headerFold_get df.cols _ f vals fmt hcol hfmt hheader
  exact ⟨filter_key_singleton _ _ _ (validate_fixable_nodup rmatch df spec expected) hget,
    default_format_of_header _ _ hfmt⟩

/-- Witness for C1: the `EventDate` field is declared `date` in the master
(best-effort parse fails on `31-02-2024`) and its header also flags the
strict `%d-%m-%Y` format; the single fixable entry is the header one. -/
theorem header_fix_overrides_master_date_witness :
    (validatePass (fun _ _ => true)
        (buildSpec [[Cell.str "F03", Cell.str "EventDate", Cell.str "date",
          Cell.str "", Cell.str "O", Cell.str ""]])
        [Cell.str "EventDate"]
        ⟨[("EventDate", [Cell.str "31-02-2024"])]⟩).fixable.filter
          (fun p => p.1 == "EventDate")
        = [("EventDate", FixFinding.headerFmt "EventDate" "%d-%m-%Y")]
      ∧ default_format "EventDate" = "%d-%m-%Y" :=
  header_fix_overrides_master_date (fun _ _ => true)
    (buildSpec [[Cell.str "F03", Cell.str "EventDate", Cell.str "date",
      Cell.str "", Cell.str "O", Cell.str ""]])
    [Cell.str "EventDate"] ⟨[("EventDate", [Cell.str "31-02-2024"])]⟩
    "EventDate" (mkFieldSpec [Cell.str "F03", Cell.str "EventDate", Cell.str "date",
      Cell.str "", Cell.str "O", Cell.str ""])
    [Cell.str "31-02-2024"] "%d-%m-%Y"
    (by decide) (by decide) rfl (by decide) (by decide) (by decide)

/-- The non-fixable list of a validation pass is the missing-column finding
(if any) followed by the per-field findings in `validation_spec` order. -/
theorem validate_nonfixable_eq (rmatch : String → String → Bool)
    (spec : List (Cell × FieldSpec)) (expected : List Cell) (df : DataFrame) :
    (validatePass rmatch spec expected df).nonFixable =
      (if (expected.filter (fun x => !(fieldInCols x df))).isEmpty then []
        else [Finding.missingCols (expected.filter (fun x => !(fieldInCols x df)))])
        ++ spec.flatMap (fun e => fieldNonFixables rmatch df e.1 e.2) := by
  simp only [validatePass]
  rw [specFold_eq]

/-- The missing-column block never contains a per-field finding. -/
theorem count_missing_block (expected : List Cell) (df : DataFrame) (x : Finding)
    (hx : ∀ fs, x ≠ Finding.missingCols fs) :
    ((if (expected.filter (fun c => !(fieldInCols c df))).isEmpty then []
      else [Finding.missingCols (expected.filter (fun c => !(fieldInCols c df)))]).count x)
      = 0 := by
  by_cases h : (expected.filter (fun c => !(fieldInCols c df))).isEmpty
  · simp [h]
  · simp only [h, Bool.false_eq_true, if_neg, not_false_iff]
    simp [List.count_cons, hx _]

/-- Summing a per-entry count over the spec loop when exactly one key can
contribute: every entry with a different key contributes zero. -/
theorem count_flatMap_unique (g : Cell × FieldSpec → List Finding) (x : Finding)
    (spec : List (Cell × FieldSpec)) (K : Cell) (s : FieldSpec)
    (hnd : (pyKeys spec).Nodup) (hget : pyGet spec K = some s)
    (hother : ∀ e : Cell × FieldSpec, e.1 ≠ K → (g e).count x = 0) :
    (spec.flatMap g).count x = (g (K, s)).count x := by
  induction spec with
  | nil => simp [pyGet] at hget
  | cons e rest ih =>
    obtain ⟨a, b⟩ := e
    rw [List.flatMap_cons, List.count_append]
    simp only [pyKeys, List.map_cons, List.nodup_cons] at hnd
    by_cases ha : a = K
    · subst ha
      simp only [pyGet, if_pos, Option.some_inj] at hget
      subst hget
      have hrest : (rest.flatMap g).count x = 0 := by
        rw [List.count_eq_zero]
        intro hmem
        rcases List.mem_flatMap.mp hmem with ⟨e2, he2, hxe2⟩
        have hne : e2.1 ≠ a := by
          intro hc
          exact hnd.1 (hc ▸ List.mem_map_of_mem Prod.fst he2)
        exact (List.count_eq_zero.mp (hother e2 hne)) hxe2
      rw [hrest]
      simp
    · have hget' : pyGet rest K = some s := by simpa [pyGet, ha] using hget
      rw [hother (a, b) ha, ih hnd.2 hget']
      simp

/-- Count of the mandatory finding contributed by the field's own spec
entry. -/
theorem count_mand_self (rmatch : String → String → Bool) (df : DataFrame)
    (f : String) (s : FieldSpec) (vals : List Cell)
    (hcol : df.getCol f = some vals) :
    (fieldNonFixables rmatch df (Cell.str f) s).count (Finding.mandatory f) =
      if s.mandatory && vals.any Cell.isNull then 1 else 0 := by
  simp only [fieldNonFixables, hcol]
  rw [List.count_append, List.count_append]
  have h2 : (if strLower s.data_type.toPyStr == "number" && !(vals.all numericCellOk)
      then [Finding.notNumeric f] else []).count (Finding.mandatory f) = 0 := by
    by_cases h : strLower s.data_type.toPyStr == "number" && !(vals.all numericCellOk) <;>
      simp [h]
  have h3 : (match regexPattern s.validation with
      | some p =>
        if vals.any (fun v => !(rmatch p v.toPyStr)) then [Finding.pattern f p] else []
      | none => []).count (Finding.mandatory f) = 0 := by
    cases hrp : regexPattern s.validation with
    | none => simp
    | some p =>
      by_cases h : vals.any (fun v => !(rmatch p v.toPyStr)) <;> simp [h]
  rw [h2, h3]
  by_cases h1 : s.mandatory && vals.any Cell.isNull <;> simp [h1]

/-- A spec entry keyed by anything other than this field name contributes no
mandatory finding for the field. -/
theorem count_mand_other (rmatch : String → String → Bool) (df : DataFrame)
    (f : String) (key : Cell) (s : FieldSpec) (hne : key ≠ Cell.str f) :
    (fieldNonFixables rmatch df key s).count (Finding.mandatory f) = 0 := by
  rw [List.count_eq_zero]
  intro hmem
  cases key with
  | str g =>
    have hgf : g ≠ f := fun hc => hne (by rw [hc])
    cases hgc : df.getCol g with
    | none => simp only [fieldNonFixables, hgc] at hmem; simp at hmem
    | some vals =>
      cases hrp : regexPattern s.validation with
      | none =>
        simp only [fieldNonFixables, hgc, hrp] at hmem
        rcases List.mem_append.mp hmem with h | h
        · rcases List.mem_append.mp h with h1 | h1
          · by_cases hb : s.mandatory && vals.any Cell.isNull
            · rw [if_pos hb] at h1
              simp at h1
              exact hgf h1.symm
            · rw [if_neg hb] at h1
              simp at h1
          · by_cases hb : strLower s.data_type.toPyStr == "number" && !(vals.all numericCellOk)
            · rw [if_pos hb] at h1; simp at h1
            · rw [if_neg hb] at h1; simp at h1
        · simp at h
      | some p =>
        simp only [fieldNonFixables, hgc, hrp] at hmem
        rcases List.mem_append.mp hmem with h | h
        · rcases List.mem_append.mp h with h1 | h1
          · by_cases hb : s.mandatory && vals.any Cell.isNull
            · rw [if_pos hb] at h1
              simp at h1
              exact hgf h1.symm
            · rw [if_neg hb] at h1
              simp at h1
          · by_cases hb : strLower s.data_type.toPyStr == "number" && !(vals.all numericCellOk)
            · rw [if_pos hb] at h1; simp at h1
            · rw [if_neg hb] at h1; simp at h1
        · by_cases hb : vals.any (fun v => !(rmatch p v.toPyStr))
          · rw [if_pos hb] at h; simp at h
          · rw [if_neg hb] at h; simp at h
  | null => simp [fieldNonFixables] at hmem
  | num q => simp [fieldNonFixables] at hmem
  | date d => simp [fieldNonFixables] at hmem

/-- C2: a field whose rule row's mandatory flag, trimmed and upper-cased,
equals `"M"` yields exactly one non-fixable mandatory violation when its
column has a missing value; with any other flag value the field never
yields a mandatory violation. -/
theorem mandatory_violation_exactly_once (rmatch : String → String → Bool)
    (spec : List (Cell × FieldSpec)) (expected : List Cell) (df : DataFrame)
    (f : String) (row : List Cell) (vals : List Cell)
    (hnd : (pyKeys spec).Nodup)
    (hget : pyGet spec (Cell.str f) = some (mkFieldSpec row))
    (hcol : df.getCol f = some vals) :
    (strUpper (strTrim ((row.getD 4 Cell.null).toPyStr)) = "M" →
        vals.any Cell.isNull = true →
        (validatePass rmatch spec expected df).nonFixable.count
            (Finding.mandatory f) = 1)
      ∧ (strUpper (strTrim ((row.getD 4 Cell.null).toPyStr)) ≠ "M" →
        (validatePass rmatch spec expected df).nonFixable.count
            (Finding.mandatory f) = 0) := by
  have hbase :
      (validatePass rmatch spec expected df).nonFixable.count (Finding.mandatory f) =
        if (mkFieldSpec row).mandatory && vals.any Cell.isNull then 1 else 0 := by
    rw [validate_nonfixable_eq, List.count_append,
      count_missing_block expected df _ (fun fs h => by cases h),
      count_flatMap_unique _ _ spec (Cell.str f) (mkFieldSpec row) hnd hget
        (fun e he => count_mand_other rmatch df f e.1 e.2 he),
      count_mand_self rmatch df f (mkFieldSpec row) vals hcol]
    simp
  constructor
  · intro hM hnull
    rw [hbase]
    have hmand : (mkFieldSpec row).mandatory = true := by
      simp only [mkFieldSpec]
      exact beq_iff_eq.mpr hM
    simp [hmand, hnull]
  · intro hM
    rw [hbase]
    have hmand : (mkFieldSpec row).mandatory = false := by
      simp only [mkFieldSpec]
      exact beq_eq_false_iff_ne.mpr hM
    simp [hmand]

/-- Witness for C2: Scenario A (flag `M`, one empty cell, count 1) and the
same data under flag `O` (count 0). -/
theorem mandatory_violation_exactly_once_witness :
    (validatePass (fun _ _ => true)
        (buildSpec [[Cell.str "F01", Cell.str "Region", Cell.str "string",
          Cell.str "", Cell.str "M", Cell.str ""]])
        [Cell.str "Region"]
        ⟨[("Region", [Cell.str "x", Cell.null])]⟩).nonFixable.count
        (Finding.mandatory "Region") = 1
      ∧ (validatePass (fun _ _ => true)
          (buildSpec [[Cell.str "F01", Cell.str "Region", Cell.str "string",
            Cell.str "", Cell.str "O", Cell.str ""]])
          [Cell.str "Region"]
          ⟨[("Region", [Cell.str "x", Cell.null])]⟩).nonFixable.count
          (Finding.mandatory "Region") = 0 :=
  ⟨(mandatory_violation_exactly_once (fun _ _ => true)
      (buildSpec [[Cell.str "F01", Cell.str "Region", Cell.str "string",
        Cell.str "", Cell.str "M", Cell.str ""]])
      [Cell.str "Region"] ⟨[("Region", [Cell.str "x", Cell.null])]⟩
      "Region" [Cell.str "F01", Cell.str "Region", Cell.str "string",
        Cell.str "", Cell.str "M", Cell.str ""]
      [Cell.str "x", Cell.null] (by decide) rfl rfl).1 (by decide) (by decide),
   (mandatory_violation_exactly_once (fun _ _ => true)
      (buildSpec [[Cell.str "F01", Cell.str "Region", Cell.str "string",
        Cell.str "", Cell.str "O", Cell.str ""]])
      [Cell.str "Region"] ⟨[("Region", [Cell.str "x", Cell.null])]⟩
      "Region" [Cell.str "F01", Cell.str "Region", Cell.str "string",
        Cell.str "", Cell.str "O", Cell.str ""]
      [Cell.str "x", Cell.null] (by decide) rfl rfl).2 (by decide)⟩

/-- Count of the pattern finding contributed by the field's own spec entry
when its validation expression carries a regex constraint. -/
theorem count_pat_self (rmatch : String → String → Bool) (df : DataFrame)
    (f : String) (s : FieldSpec) (vals : List Cell) (p : String)
    (hcol : df.getCol f = some vals)
    (hrp : regexPattern s.validation = some p) :
    (fieldNonFixables rmatch df (Cell.str f) s).count (Finding.pattern f p) =
      if vals.any (fun v => !(rmatch p v.toPyStr)) then 1 else 0 := by
  simp only [fieldNonFixables, hcol, hrp]
  rw [List.count_append, List.count_append]
  have h1 : (if s.mandatory && vals.any Cell.isNull then [Finding.mandatory f]
      else []).count (Finding.pattern f p) = 0 := by
    by_cases h : s.mandatory && vals.any Cell.isNull <;> simp [h]
  have h2 : (if strLower s.data_type.toPyStr == "number" && !(vals.all numericCellOk)
      then [Finding.notNumeric f] else []).count (Finding.pattern f p) = 0 := by
    by_cases h : strLower s.data_type.toPyStr == "number" && !(vals.all numericCellOk) <;>
      simp [h]
  rw [h1, h2]
  by_cases h3 : vals.any (fun v => !(rmatch p v.toPyStr)) <;> simp [h3]

/-- A spec entry without a regex constraint contributes no pattern finding. -/
theorem count_pat_none (rmatch : String → String → Bool) (df : DataFrame)
    (f : String) (s : FieldSpec) (vals : List Cell) (p' : String)
    (hcol : df.getCol f = some vals)
    (hrp : regexPattern s.validation = none) :
    (fieldNonFixables rmatch df (Cell.str f) s).count (Finding.pattern f p') = 0 := by
  simp only [fieldNonFixables, hcol, hrp]
  rw [List.count_append, List.count_append]
  have h1 : (if s.mandatory && vals.any Cell.isNull then [Finding.mandatory f]
      else []).count (Finding.pattern f p') = 0 := by
    by_cases h : s.mandatory && vals.any Cell.isNull <;> simp [h]
  have h2 : (if strLower s.data_type.toPyStr == "number" && !(vals.all numericCellOk)
      then [Finding.notNumeric f] else []).count (Finding.pattern f p') = 0 := by
    by_cases h : strLower s.data_type.toPyStr == "number" && !(vals.all numericCellOk) <;>
      simp [h]
  rw [h1, h2]
  simp

/-- A spec entry keyed by anything other than this field name contributes no
pattern finding for the field. -/
theorem count_pat_other (rmatch : String → String → Bool) (df : DataFrame)
    (f p' : String) (key : Cell) (s : FieldSpec) (hne : key ≠ Cell.str f) :
    (fieldNonFixables rmatch df key s).count (Finding.pattern f p') = 0 := by
  rw [List.count_eq_zero]
  intro hmem
  cases key with
  | str g =>
    have hgf : g ≠ f := fun hc => hne (by rw [hc])
    cases hgc : df.getCol g with
    | none => simp only [fieldNonFixables, hgc] at hmem; simp at hmem
    | some vals =>
      cases hrp : regexPattern s.validation with
      | none =>
        simp only [fieldNonFixables, hgc, hrp] at hmem
        rcases List.mem_append.mp hmem with h | h
        · rcases List.mem_append.mp h with h1 | h1
          · by_cases hb : s.mandatory && vals.any Cell.isNull
            · rw [if_pos hb] at h1; simp at h1
            · rw [if_neg hb] at h1; simp at h1
          · by_cases hb : strLower s.data_type.toPyStr == "number" && !(vals.all numericCellOk)
            · rw [if_pos hb] at h1; simp at h1
            · rw [if_neg hb] at h1; simp at h1
        · simp at h
      | some p =>
        simp only [fieldNonFixables, hgc, hrp] at hmem
        rcases List.mem_append.mp hmem with h | h
        · rcases List.mem_append.mp h with h1 | h1
          · by_cases hb : s.mandatory && vals.any Cell.isNull
            · rw [if_pos hb] at h1; simp at h1
            · rw [if_neg hb] at h1; simp at h1
          · by_cases hb : strLower s.data_type.toPyStr == "number" && !(vals.all numericCellOk)
            · rw [if_pos hb] at h1; simp at h1
            · rw [if_neg hb] at h1; simp at h1
        · by_cases hb : vals.any (fun v => !(rmatch p v.toPyStr))
          · rw [if_pos hb] at h
            simp at h
            exact hgf h.1.symm
          · rw [if_neg hb] at h; simp at h
  | null => simp [fieldNonFixables] at hmem
  | num q => simp [fieldNonFixables] at hmem
  | date d => simp [fieldNonFixables] at hmem

/-- C5: a validation expression that is a string with the (case-insensitive)
`regex:` prefix imposes the trimmed remainder as a full-string pattern: if
any value of the column, viewed as a string, fails to match, exactly one
non-fixable pattern violation for the field (field-level, not per row) is
reported; a validation expression carrying no regex constraint yields no
pattern violation for the field at all. -/
theorem regex_pattern_violation (rmatch : String → String → Bool)
    (spec : List (Cell × FieldSpec)) (expected : List Cell) (df : DataFrame)
    (f : String) (s : FieldSpec) (vals : List Cell) (vs : String)
    (hnd : (pyKeys spec).Nodup)
    (hget : pyGet spec (Cell.str f) = some s)
    (hcol : df.getCol f = some vals) :
    (s.validation = Cell.str vs → vs ≠ "" →
        strStartsWith (strLower vs) "regex:" = true →
        vals.any (fun v => !(rmatch (strTrim (strDropN vs 6)) v.toPyStr)) = true →
        (validatePass rmatch spec expected df).nonFixable.count
            (Finding.pattern f (strTrim (strDropN vs 6))) = 1)
      ∧ (regexPattern s.validation = none →
        ∀ p, (validatePass rmatch spec expected df).nonFixable.count
            (Finding.pattern f p) = 0) := by
  constructor
  · intro hvs hne hsw hany
    have hrp : regexPattern s.validation = some (strTrim (strDropN vs 6)) := by
      rw [hvs]
      simp [regexPattern, hne, hsw]
    rw [validate_nonfixable_eq, List.count_append,
      count_missing_block expected df _ (fun fs h => by cases h),
      count_flatMap_unique _ _ spec (Cell.str f) s hnd hget
        (fun e he => count_pat_other rmatch df f _ e.1 e.2 he),
      count_pat_self rmatch df f s vals _ hcol hrp]
    simp [hany]
  · intro hrp p
    rw [validate_nonfixable_eq, List.count_append,
      count_missing_block expected df _ (fun fs h => by cases h),
      count_flatMap_unique _ _ spec (Cell.str f) s hnd hget
        (fun e he => count_pat_other rmatch df f _ e.1 e.2 he),
      count_pat_none rmatch df f s vals _ hcol hrp]

/-- Witness for C5: Scenario C — pattern `^[A-Z]\x7b2\x7d\\d\x7b4\x7d$` on
value `ab123` with a matcher rejecting it (count 1), and a rule with an
empty validation expression (no pattern finding for any pattern). -/
theorem regex_pattern_violation_witness :
    (validatePass (fun p v => p == "^[A-Z]\x7b2\x7d\\d\x7b4\x7d$" && v == "AB1234")
        (buildSpec [[Cell.str "F02", Cell.str "Code", Cell.str "string",
          Cell.str "regex:^[A-Z]\x7b2\x7d\\d\x7b4\x7d$", Cell.str "O", Cell.str ""]])
        [Cell.str "Code"]
        ⟨[("Code", [Cell.str "ab123"])]⟩).nonFixable.count
        (Finding.pattern "Code"
          (strTrim (strDropN "regex:^[A-Z]\x7b2\x7d\\d\x7b4\x7d$" 6))) = 1
      ∧ (validatePass (fun _ _ => true)
          (buildSpec [[Cell.str "F02", Cell.str "Code", Cell.str "string",
            Cell.str "", Cell.str "O", Cell.str ""]])
          [Cell.str "Code"]
          ⟨[("Code", [Cell.str "ab123"])]⟩).nonFixable.count
          (Finding.pattern "Code" "^x$") = 0 :=
  ⟨(regex_pattern_violation
      (fun p v => p == "^[A-Z]\x7b2\x7d\\d\x7b4\x7d$" && v == "AB1234")
      (buildSpec [[Cell.str "F02", Cell.str "Code", Cell.str "string",
        Cell.str "regex:^[A-Z]\x7b2\x7d\\d\x7b4\x7d$", Cell.str "O", Cell.str ""]])
      [Cell.str "Code"] ⟨[("Code", [Cell.str "ab123"])]⟩ "Code"
      (mkFieldSpec [Cell.str "F02", Cell.str "Code", Cell.str "string",
        Cell.str "regex:^[A-Z]\x7b2\x7d\\d\x7b4\x7d$", Cell.str "O", Cell.str ""])
      [Cell.str "ab123"] "regex:^[A-Z]\x7b2\x7d\\d\x7b4\x7d$"
      (by decide) rfl rfl).1 rfl (by decide) (by decide) (by decide),
   (regex_pattern_violation (fun _ _ => true)
      (buildSpec [[Cell.str "F02", Cell.str "Code", Cell.str "string",
        Cell.str "", Cell.str "O", Cell.str ""]])
      [Cell.str "Code"] ⟨[("Code", [Cell.str "ab123"])]⟩ "Code"
      (mkFieldSpec [Cell.str "F02", Cell.str "Code", Cell.str "string",
        Cell.str "", Cell.str "O", Cell.str ""])
      [Cell.str "ab123"] ""
      (by decide) rfl rfl).2 (by decide) "^x$"⟩

/-- Every element of the deduplication came from the original list. -/
theorem mem_dedupFirst {α : Type} [DecidableEq α] (l : List α) (x : α)
    (hx : x ∈ dedupFirst l) : x ∈ l := by
  induction l using dedupFirst.induct with
  | case1 => simp [dedupFirst] at hx
  | case2 a t ih =>
    rw [dedupFirst] at hx
    rcases List.mem_cons.mp hx with h | h
    · simp [h]
    · exact List.mem_cons_of_mem a (List.mem_of_mem_filter (ih h))

/-- First-occurrence deduplication yields pairwise distinct elements. -/
theorem dedupFirst_nodup {α : Type} [DecidableEq α] (l : List α) :
    (dedupFirst l).Nodup := by
  induction l using dedupFirst.induct with
  | case1 => simp [dedupFirst]
  | case2 a t ih =>
    rw [dedupFirst]
    refine List.nodup_cons.mpr ⟨?_, ih⟩
    intro hmem
    have := List.of_mem_filter (mem_dedupFirst _ _ hmem)
    simp at this

/-- Looking a key up in the compiled spec returns the `FieldSpec` built from
the last rule row carrying that key. -/
theorem buildSpec_fold_get (rows : List (List Cell)) (m : List (Cell × FieldSpec))
    (k : Cell) :
    pyGet (rows.foldl (fun acc row => pyInsert acc (rowName row) (mkFieldSpec row)) m) k =
      match lastRowFor k rows with
      | some row => some (mkFieldSpec row)
      | none => pyGet m k := by
  induction rows generalizing m with
  | nil => simp [lastRowFor]
  | cons r rest ih =>
    rw [List.foldl_cons, ih]
    cases hf : lastRowFor k rest with
    | some row => simp [lastRowFor, hf]
    | none =>
      simp only [lastRowFor, hf]
      by_cases hr : rowName r == k
      · have hk := beq_iff_eq.mp hr
        subst hk
        simp only [hr, if_pos]
        exact pyGet_insert_self _ _ _
      · simp only [hr, Bool.false_eq_true, if_neg, not_false_iff]
        exact pyGet_insert_ne _ _ _ _
          (fun hc => by rw [hc] at hr; simp at hr)

/-- The key list of the compiled spec extends the accumulator's keys by the
first occurrences of the new names, in order. -/
theorem buildSpec_fold_keys (rows : List (List Cell)) (m : List (Cell × FieldSpec)) :
    pyKeys (rows.foldl (fun acc row => pyInsert acc (rowName row) (mkFieldSpec row)) m) =
      pyKeys m ++ dedupFirst
        ((rows.map rowName).filter (fun x => !(decide (x ∈ pyKeys m)))) := by
  induction rows generalizing m with
  | nil => simp [dedupFirst]
  | cons r rest ih =>
    rw [List.foldl_cons, ih]
    by_cases hmem : rowName r ∈ pyKeys m
    · rw [pyKeys_insert_mem _ _ _ hmem]
      simp [List.filter, hmem]
    · rw [pyKeys_insert_not_mem _ _ _ hmem, List.append_assoc]
      congr 1
      have hhead : ((r :: rest).map rowName).filter (fun x => !(decide (x ∈ pyKeys m)))
          = rowName r ::
            ((rest.map rowName).filter (fun x => !(decide (x ∈ pyKeys m)))) := by
        simp [List.filter, hmem]
      rw [hhead, dedupFirst, List.singleton_append]
      congr 1
      rw [List.filter_filter]
      congr 1
      apply List.filter_congr
      intro x _
      by_cases h1 : x = rowName r <;> by_cases h2 : x ∈ pyKeys m <;> simp [h1, h2]

/-- C10: when rule rows share a field name, the compiled spec holds exactly
one entry for that name, built from the last such row, and the expected
field list keeps every name at the position of its first occurrence. -/
theorem duplicate_rule_last_wins (rows : List (List Cell)) (k : Cell)
    (row : List Cell) (hlast : lastRowFor k rows = some row) :
    (buildSpec rows).filter (fun e => e.1 == k) = [(k, mkFieldSpec row)]
      ∧ pyKeys (buildSpec rows) = dedupFirst (rows.map rowName) := by
  have hget : pyGet (buildSpec rows) k = some (mkFieldSpec row) := by
    unfold buildSpec
    rw [buildSpec_fold_get]
    simp [hlast]
  have hkeys : pyKeys (buildSpec rows) = dedupFirst (rows.map rowName) := by
    unfold buildSpec
    rw [buildSpec_fold_keys]
    simp [pyKeys]
  have hnd : (pyKeys (buildSpec rows)).Nodup := by
    rw [hkeys]
    exact dedupFirst_nodup _
  exact ⟨filter_key_singleton _ _ _ hnd hget, hkeys⟩

/-- Witness for C10: two rows named `A` (the second, optional `string` row
wins) followed by one row named `B`; the expected order keeps `A` first. -/
theorem duplicate_rule_last_wins_witness :
    (buildSpec [[Cell.str "1", Cell.str "A", Cell.str "number", Cell.str "",
        Cell.str "M", Cell.str ""],
      [Cell.str "2", Cell.str "A", Cell.str "string", Cell.str "",
        Cell.str "O", Cell.str "d2"],
      [Cell.str "3", Cell.str "B", Cell.str "date", Cell.str "",
        Cell.str "M", Cell.str ""]]).filter (fun e => e.1 == Cell.str "A")
      = [(Cell.str "A", mkFieldSpec [Cell.str "2", Cell.str "A", Cell.str "string",
          Cell.str "", Cell.str "O", Cell.str "d2"])]
    ∧ pyKeys (buildSpec [[Cell.str "1", Cell.str "A", Cell.str "number", Cell.str "",
        Cell.str "M", Cell.str ""],
      [Cell.str "2", Cell.str "A", Cell.str "string", Cell.str "",
        Cell.str "O", Cell.str "d2"],
      [Cell.str "3", Cell.str "B", Cell.str "date", Cell.str "",
        Cell.str "M", Cell.str ""]])
      = dedupFirst ([[Cell.str "1", Cell.str "A", Cell.str "number", Cell.str "",
        Cell.str "M", Cell.str ""],
      [Cell.str "2", Cell.str "A", Cell.str "string", Cell.str "",
        Cell.str "O", Cell.str "d2"],
      [Cell.str "3", Cell.str "B", Cell.str "date", Cell.str "",
        Cell.str "M", Cell.str ""]].map rowName) := by
  have h := duplicate_rule_last_wins
    [[Cell.str "1", Cell.str "A", Cell.str "number", Cell.str "",
        Cell.str "M", Cell.str ""],
      [Cell.str "2", Cell.str "A", Cell.str "string", Cell.str "",
        Cell.str "O", Cell.str "d2"],
      [Cell.str "3", Cell.str "B", Cell.str "date", Cell.str "",
        Cell.str "M", Cell.str ""]]
    (Cell.str "A")
    [Cell.str "2", Cell.str "A", Cell.str "string", Cell.str "",
      Cell.str "O", Cell.str "d2"] rfl
  exact h

end MAV
